import Mathlib

/-!
Verification development for the SlackBESS battery dispatch tool
(src/BESS.py).  The script's core is embedded shallowly over `ℚ`:

* `dispatchStep` / `dispatchTrajectory` — the dispatch loop
  (src/BESS.py lines 93-109) producing the state-of-charge and
  energy-flow trajectories;
* `cycleUpdate` / `cycleFold` / `fullCycleCount` — the embedded cycle
  counter (lines 111-116);
* `objectiveLoop` / `objective_function` — the optimizer objective
  (lines 37-55);
* `takeChunks` / `reshape` / `columnMeans` / `averageDailyProfile` —
  the average annual daily profile computation (lines 126-136),
  mirroring numpy reshape(365, 24) followed by mean(axis=0);
* `monthLabel` — the month assignment (line 163);
* `validateInput` — the only pre-simulation input check the script
  performs (lines 16-18).
-/

namespace SlackBESS

/-- One iteration of the dispatch loop (src/BESS.py lines 93-109).
Given the configuration, the state of charge left by the previous step
and this step's slack, returns the updated state of charge
(`last_bess_charge`) and the `energy_flow` recorded for the step. -/
def dispatchStep (efficiency peak_discharge_rate min_bess_charge max_bess_charge
    charge slack : ℚ) : ℚ × ℚ :=
  if 0 < slack then
    let room_to_min := charge - min_bess_charge
    let discharge_amount := min (min (slack / efficiency) peak_discharge_rate) room_to_min
    (charge - discharge_amount, discharge_amount * efficiency)
  else if slack < 0 then
    let room_to_max := max_bess_charge - charge
    let charge_amount := min (min (|slack| * efficiency) peak_discharge_rate) room_to_max
    (charge + charge_amount, -(charge_amount / efficiency))
  else
    (charge, 0)

/-- The dispatch loop over a slack series: the list of
(`last_bess_charge`, `energy_flow`) pairs appended per step
(`bess_values` zipped with `energy_flow_values` in src/BESS.py). -/
def dispatchTrajectory (eff peak mn mx : ℚ) (charge : ℚ) : List ℚ → List (ℚ × ℚ)
  | [] => []
  | slack :: rest =>
    let step := dispatchStep eff peak mn mx charge slack
    step :: dispatchTrajectory eff peak mn mx step.1 rest

/-- The cycle-counter update run after each step's state-of-charge
update (src/BESS.py lines 111-116): on `last_bess_charge >= max` a
cycle is counted when the discharge flag is set and the flag is
cleared; otherwise on `last_bess_charge <= min` the flag is set. -/
def cycleUpdate (mn mx : ℚ) (charge : ℚ) (count : ℕ) (flag : Bool) : ℕ × Bool :=
  if mx ≤ charge then
    if flag then (count + 1, false) else (count, flag)
  else if charge ≤ mn then
    (count, true)
  else
    (count, flag)

/-- Folding the cycle-counter update over the state-of-charge
trajectory, as the dispatch loop does step by step. -/
def cycleFold (mn mx : ℚ) : List ℚ → ℕ → Bool → ℕ × Bool
  | [], count, flag => (count, flag)
  | c :: rest, count, flag =>
    let next := cycleUpdate mn mx c count flag
    cycleFold mn mx rest next.1 next.2

/-- The `cycle_count` reported at the end of the dispatch loop:
the counter starts at 0 with `in_discharge_cycle = False` and is
folded over the state-of-charge trajectory. -/
def fullCycleCount (eff peak mn mx : ℚ) (slacks : List ℚ) : ℕ :=
  (cycleFold mn mx ((dispatchTrajectory eff peak mn mx mn slacks).map Prod.fst) 0 false).1

/-- The accumulation loop inside `objective_function`
(src/BESS.py lines 43-53): threads `bess_charge` and accumulates
`lack_of_energy` and `excess_of_energy`, returned as a pair. -/
def objectiveLoop (eff peak mn mx : ℚ) : List ℚ → ℚ → ℚ → ℚ → ℚ × ℚ
  | [], _charge, lack, excess => (lack, excess)
  | slack :: rest, charge, lack, excess =>
    if 0 < slack then
      let room_to_min := charge - mn
      let discharge_amount := min (min (slack / eff) peak) room_to_min
      objectiveLoop eff peak mn mx rest (charge - discharge_amount)
        (lack + (slack - discharge_amount * eff)) excess
    else if slack < 0 then
      let room_to_max := mx - charge
      let charge_amount := min (min (|slack| * eff) peak) room_to_max
      objectiveLoop eff peak mn mx rest (charge + charge_amount)
        lack (excess + (|slack| - charge_amount / eff))
    else
      objectiveLoop eff peak mn mx rest charge lack excess

/-- `objective_function(params, slack_values, efficiency,
min_bess_charge, max_bess_charge)` from src/BESS.py lines 37-55.
`params` unpacks to `(peak_discharge_rate, bess_capacity)`; the body
starts from `bess_charge = min_bess_charge`, runs the accumulation
loop and returns `abs(lack_of_energy - excess_of_energy)`.  Note that
`bess_capacity` does not occur in the body. -/
def objective_function (peak_discharge_rate bess_capacity : ℚ) (slack_values : List ℚ)
    (efficiency min_bess_charge max_bess_charge : ℚ) : ℚ :=
  let totals := objectiveLoop efficiency peak_discharge_rate min_bess_charge
    max_bess_charge slack_values min_bess_charge 0 0
  |totals.1 - totals.2|

/-- The spec's `unmetDeficitTotal` field of a DispatchResult, expressed
over the (slack, energyFlow) pairs of a dispatch run: the sum over
deficit steps of `slack - energyFlow`. -/
def unmetDeficitTotal (pairs : List (ℚ × ℚ)) : ℚ :=
  (pairs.map (fun p => if 0 < p.1 then p.1 - p.2 else 0)).sum

/-- The spec's `unabsorbedSurplusTotal` field of a DispatchResult,
expressed over the (slack, energyFlow) pairs of a dispatch run: on a
surplus step the flow is `-(chargeAmount / efficiency)`, so the
accumulated `|slack| - chargeAmount / efficiency` is `|slack| + flow`. -/
def unabsorbedSurplusTotal (pairs : List (ℚ × ℚ)) : ℚ :=
  (pairs.map (fun p => if p.1 < 0 then |p.1| + p.2 else 0)).sum

/-- Modelled from the spec: the objective C4 claims, in which the
energy-capacity bound fields of the configuration scale with the
candidate capacity (`min`/`max` state of charge are the configured
fractions of the capacity argument), rather than staying fixed. -/
def objectiveCapacityScaled (peak_discharge_rate bess_capacity : ℚ) (slack_values : List ℚ)
    (efficiency min_fraction max_fraction : ℚ) : ℚ :=
  objective_function peak_discharge_rate bess_capacity slack_values efficiency
    (min_fraction * bess_capacity) (max_fraction * bess_capacity)

/-- Row-major reshape rows: chunk `rows` consecutive rows of `cols`
entries each off the front of the flat list (numpy C-order). -/
def takeChunks (cols : ℕ) : ℕ → List ℚ → List (List ℚ)
  | 0, _ => []
  | rows + 1, l => l.take cols :: takeChunks cols rows (l.drop cols)

/-- numpy `reshape(rows, cols)` on a flat vector: succeeds exactly when
the length matches `rows * cols`, else raises (modelled as `none`). -/
def reshape (rows cols : ℕ) (l : List ℚ) : Option (List (List ℚ)) :=
  if l.length = rows * cols then some (takeChunks cols rows l) else none

/-- numpy `mean(axis=0)` over a list of rows: for each column index the
sum of that column divided by the number of rows. -/
def columnMeans (cols : ℕ) (rows : List (List ℚ)) : List ℚ :=
  (List.range cols).map (fun h => (rows.map (fun row => row.getD h 0)).sum / (rows.length : ℚ))

/-- The average annual daily profile of a trajectory
(src/BESS.py lines 126-136): `values.reshape(days_per_year,
hours_per_day).mean(axis=0)` with `days_per_year = 365` and
`hours_per_day = 24` hard-coded. -/
def averageDailyProfile (values : List ℚ) : Option (List ℚ) :=
  (reshape 365 24 values).map (columnMeans 24)

/-- The month label of step index `i` (src/BESS.py line 163):
`(df.index // (hours_per_day * 30)) % 12 + 1`. -/
def monthLabel (i : ℕ) : ℕ :=
  i / (24 * 30) % 12 + 1

/-- The errors the script can raise before the optimizer and the
dispatch loop run. -/
inductive UploadError where
  | missingSlackColumn
deriving DecidableEq

/-- The only pre-simulation validation in the script
(src/BESS.py lines 16-18): the uploaded CSV must contain a Slack
column.  No configuration value (efficiency, min/max charge) is
checked anywhere. -/
def validateInput (hasSlackColumn : Bool) : Option UploadError :=
  if hasSlackColumn then none else some .missingSlackColumn

/-! ### Step lemmas for the dispatch loop -/

/-- Under a valid configuration the per-step `min` for the discharge and
charge amounts is already non-negative, so the updated state of charge
stays within the configured bounds. -/
theorem dispatchStep_fst_bounds (eff peak mn mx charge slack : ℚ)
    (heff : 0 < eff) (hpeak : 0 ≤ peak) (h1 : mn ≤ charge) (h2 : charge ≤ mx) :
    mn ≤ (dispatchStep eff peak mn mx charge slack).1 ∧
      (dispatchStep eff peak mn mx charge slack).1 ≤ mx := by
  by_cases hs : 0 < slack
  · have hd1 : min (min (slack / eff) peak) (charge - mn) ≤ charge - mn :=
      min_le_right _ _
    have hd0 : (0:ℚ) ≤ min (min (slack / eff) peak) (charge - mn) :=
      le_min (le_min (div_pos hs heff).le hpeak) (sub_nonneg.2 h1)
    simp only [dispatchStep, if_pos hs]
    exact ⟨by linarith, by linarith⟩
  · by_cases hs2 : slack < 0
    · have hc1 : min (min (|slack| * eff) peak) (mx - charge) ≤ mx - charge :=
        min_le_right _ _
      have hc0 : (0:ℚ) ≤ min (min (|slack| * eff) peak) (mx - charge) :=
        le_min (le_min (mul_nonneg (abs_nonneg slack) heff.le) hpeak) (sub_nonneg.2 h2)
      simp only [dispatchStep, if_neg hs, if_pos hs2]
      exact ⟨by linarith, by linarith⟩
    · simp only [dispatchStep, if_neg hs, if_neg hs2]
      exact ⟨h1, h2⟩

/-- The state-of-charge bounds propagate along the whole dispatch
trajectory from any starting charge within the bounds. -/
theorem dispatchTrajectory_fst_bounds (eff peak mn mx : ℚ)
    (heff : 0 < eff) (hpeak : 0 ≤ peak) :
    ∀ (slacks : List ℚ) (charge : ℚ), mn ≤ charge → charge ≤ mx →
      ∀ pr ∈ dispatchTrajectory eff peak mn mx charge slacks, mn ≤ pr.1 ∧ pr.1 ≤ mx := by
  intro slacks
  induction slacks with
  | nil =>
    intro charge _ _ pr hpr
    simp [dispatchTrajectory] at hpr
  | cons s rest ih =>
    intro charge h1 h2 pr hpr
    have hstep := dispatchStep_fst_bounds eff peak mn mx charge s heff hpeak h1 h2
    simp only [dispatchTrajectory, List.mem_cons] at hpr
    rcases hpr with h | h
    · rw [h]; exact hstep
    · exact ih (dispatchStep eff peak mn mx charge s).1 hstep.1 hstep.2 pr h

/-!
### Claim C1
-/

/-- Claim C1: at every step of the dispatch loop, under a valid
configuration (efficiency positive, power limit non-negative, state of
charge within bounds as every reachable state is), the computed step
matches the spec formulas: for a deficit the discharge amount is
`min(slack / efficiency, powerLimit, roomToFloor)` clamped to be
non-negative, the state of charge decreases by it and the flow is the
amount times the efficiency; for a surplus the charge amount is
`min(|slack| * efficiency, powerLimit, roomToCeiling)` clamped to be
non-negative, the state of charge increases by it and the flow is minus
the amount divided by the efficiency; for zero slack nothing changes
and the flow is zero. -/
theorem dispatch_step_formulas (eff peak mn mx charge slack : ℚ)
    (heff : 0 < eff) (hpeak : 0 ≤ peak) (hlo : mn ≤ charge) (hhi : charge ≤ mx) :
    (0 < slack →
      (dispatchStep eff peak mn mx charge slack).1
          = charge - max 0 (min (min (slack / eff) peak) (charge - mn)) ∧
      (dispatchStep eff peak mn mx charge slack).2
          = max 0 (min (min (slack / eff) peak) (charge - mn)) * eff) ∧
    (slack < 0 →
      (dispatchStep eff peak mn mx charge slack).1
          = charge + max 0 (min (min (|slack| * eff) peak) (mx - charge)) ∧
      (dispatchStep eff peak mn mx charge slack).2
          = -(max 0 (min (min (|slack| * eff) peak) (mx - charge)) / eff)) ∧
    (slack = 0 →
      (dispatchStep eff peak mn mx charge slack).1 = charge ∧
      (dispatchStep eff peak mn mx charge slack).2 = 0) := by
  refine ⟨fun hs => ?_, fun hs => ?_, fun hs => ?_⟩
  · have h0 : (0:ℚ) ≤ min (min (slack / eff) peak) (charge - mn) :=
      le_min (le_min (div_pos hs heff).le hpeak) (sub_nonneg.2 hlo)
    rw [max_eq_right h0]
    simp [dispatchStep, hs]
  · have h0 : (0:ℚ) ≤ min (min (|slack| * eff) peak) (mx - charge) :=
      le_min (le_min (mul_nonneg (abs_nonneg slack) heff.le) hpeak) (sub_nonneg.2 hhi)
    have hns : ¬ 0 < slack := not_lt.2 hs.le
    rw [max_eq_right h0]
    simp [dispatchStep, hns, hs]
  · simp [dispatchStep, hs]

/-- Witness for claim C1 at a concrete deficit step. -/
theorem dispatch_step_formulas_witness :
    (dispatchStep 1 10 1 9 5 3).1 = 5 - max 0 (min (min ((3:ℚ) / 1) 10) (5 - 1)) ∧
    (dispatchStep 1 10 1 9 5 3).2 = max 0 (min (min ((3:ℚ) / 1) 10) (5 - 1)) * 1 :=
  (dispatch_step_formulas 1 10 1 9 5 3 (by norm_num) (by norm_num)
    (by norm_num) (by norm_num)).1 (by norm_num)

/-!
### Claim C2
-/

/-- Claim C2: for every slack series and valid configuration
(non-negative power limit, efficiency in (0, 1], floor below ceiling,
initial state of charge at the floor), every state-of-charge value of
the dispatch trajectory lies within the configured bounds. -/
theorem soc_trajectory_within_bounds (eff peak mn mx : ℚ) (slacks : List ℚ)
    (heff : 0 < eff) (heffle : eff ≤ 1) (hpeak : 0 ≤ peak) (hmn : mn < mx) :
    ∀ pr ∈ dispatchTrajectory eff peak mn mx mn slacks, mn ≤ pr.1 ∧ pr.1 ≤ mx :=
  dispatchTrajectory_fst_bounds eff peak mn mx heff hpeak slacks mn le_rfl hmn.le

/-- Witness for claim C2 on a concrete run: the second trajectory entry
of the run over slack series [5, -5] has state of charge 6, which the
theorem places between the bounds 1 and 9. -/
theorem soc_trajectory_within_bounds_witness :
    ((6:ℚ), (-5:ℚ)) ∈ dispatchTrajectory 1 10 1 9 1 [5, -5] ∧
      ((1:ℚ) ≤ ((6:ℚ), (-5:ℚ)).1 ∧ ((6:ℚ), (-5:ℚ)).1 ≤ 9) := by
  have hmem : ((6:ℚ), (-5:ℚ)) ∈ dispatchTrajectory 1 10 1 9 1 [5, -5] := by
    norm_num [dispatchTrajectory, dispatchStep, min_def]
  exact ⟨hmem, soc_trajectory_within_bounds 1 10 1 9 [5, -5]
    (by norm_num) (by norm_num) (by norm_num) (by norm_num) _ hmem⟩

/-!
### Claim C3
-/

/-- If folding the cycle counter over a charge list strictly increases
the count, then the list visits the ceiling; and when the discharge
flag starts cleared, some floor visit strictly precedes a ceiling
visit. -/
theorem cycleFold_count_pos (mn mx : ℚ) :
    ∀ (charges : List ℚ) (n : ℕ) (f : Bool),
      n < (cycleFold mn mx charges n f).1 →
      (∃ j cj, charges.get? j = some cj ∧ mx ≤ cj) ∧
      (f = false → ∃ i j ci cj, i < j ∧
        charges.get? i = some ci ∧ ci ≤ mn ∧
        charges.get? j = some cj ∧ mx ≤ cj) := by
  intro charges
  induction charges with
  | nil =>
    intro n f h
    simp [cycleFold] at h
  | cons c rest ih =>
    intro n f h
    simp only [cycleFold] at h
    by_cases hmx : mx ≤ c
    · cases f with
      | true =>
        refine ⟨⟨0, c, rfl, hmx⟩, fun hf => ?_⟩
        exact absurd hf (by simp)
      | false =>
        simp [cycleUpdate, hmx] at h
        obtain ⟨⟨j, cj, hj, hcj⟩, hfloor⟩ := ih n false h
        obtain ⟨i, j2, ci, cj2, hij, hi, hci, hj2, hcj2⟩ := hfloor rfl
        exact ⟨⟨j + 1, cj, by simpa using hj, hcj⟩,
          fun _ => ⟨i + 1, j2 + 1, ci, cj2, by omega, by simpa using hi, hci,
            by simpa using hj2, hcj2⟩⟩
    · by_cases hmn : c ≤ mn
      · simp [cycleUpdate, hmx, hmn] at h
        obtain ⟨⟨j, cj, hj, hcj⟩, -⟩ := ih n true h
        refine ⟨⟨j + 1, cj, by simpa using hj, hcj⟩, fun _ => ?_⟩
        exact ⟨0, j + 1, c, cj, by omega, rfl, hmn, by simpa using hj, hcj⟩
      · simp [cycleUpdate, hmx, hmn] at h
        obtain ⟨⟨j, cj, hj, hcj⟩, hfloor⟩ := ih n f h
        refine ⟨⟨j + 1, cj, by simpa using hj, hcj⟩, fun hf => ?_⟩
        obtain ⟨i, j2, ci, cj2, hij, hi, hci, hj2, hcj2⟩ := hfloor hf
        exact ⟨i + 1, j2 + 1, ci, cj2, by omega, by simpa using hi, hci,
          by simpa using hj2, hcj2⟩

/-- Claim C3: the cycle counter increments exactly on a step whose
updated state of charge reaches the ceiling while the discharge flag is
set; the flag is set whenever the updated state of charge reaches the
floor, and is cleared on any counted cycle (indeed on any ceiling
visit); and since the flag starts cleared, a positive full-cycle count
implies a floor visit strictly preceding a ceiling visit in the
state-of-charge trajectory. -/
theorem cycle_counter_floor_to_ceiling (mn mx : ℚ) (hmn : mn < mx) :
    (∀ (c : ℚ) (n : ℕ) (f : Bool),
      (cycleUpdate mn mx c n f).1 = n + (if mx ≤ c ∧ f = true then 1 else 0)) ∧
    (∀ (c : ℚ) (n : ℕ) (f : Bool), c ≤ mn → (cycleUpdate mn mx c n f).2 = true) ∧
    (∀ (c : ℚ) (n : ℕ) (f : Bool), mx ≤ c → (cycleUpdate mn mx c n f).2 = false) ∧
    (∀ (eff peak : ℚ) (slacks : List ℚ),
      0 < fullCycleCount eff peak mn mx slacks →
      ∃ i j ci cj, i < j ∧
        ((dispatchTrajectory eff peak mn mx mn slacks).map Prod.fst).get? i = some ci ∧
        ci ≤ mn ∧
        ((dispatchTrajectory eff peak mn mx mn slacks).map Prod.fst).get? j = some cj ∧
        mx ≤ cj) := by
  refine ⟨?_, ?_, ?_, ?_⟩
  · intro c n f
    unfold cycleUpdate
    by_cases hmx : mx ≤ c
    · cases f <;> simp [hmx]
    · by_cases hmn2 : c ≤ mn <;> simp [hmx, hmn2]
  · intro c n f hc
    have hmx : ¬ mx ≤ c := fun hcon => absurd (hcon.trans hc) (not_le.2 hmn)
    simp [cycleUpdate, hmx, hc]
  · intro c n f hc
    cases f <;> simp [cycleUpdate, hc]
  · intro eff peak slacks h
    exact (cycleFold_count_pos mn mx
      ((dispatchTrajectory eff peak mn mx mn slacks).map Prod.fst) 0 false h).2 rfl

/-- Witness for claim C3: with floor 0 and ceiling 1, a floor visit at
charge 0 sets the discharge flag. -/
theorem cycle_counter_floor_to_ceiling_witness :
    (cycleUpdate 0 1 0 7 false).2 = true :=
  (cycle_counter_floor_to_ceiling 0 1 (by norm_num)).2.1 0 7 false (by norm_num)

/-!
### Claim C4
-/

/-- The accumulation loop of `objective_function` computes exactly the
spec totals of the dispatch run started from the same charge: the
threaded `lack_of_energy` and `excess_of_energy` grow by the unmet
deficit and unabsorbed surplus of the (slack, energy flow) pairs the
dispatch loop would record. -/
theorem objectiveLoop_eq_totals (eff peak mn mx : ℚ) :
    ∀ (slacks : List ℚ) (charge lack excess : ℚ),
      objectiveLoop eff peak mn mx slacks charge lack excess =
        (lack + unmetDeficitTotal
            (slacks.zip ((dispatchTrajectory eff peak mn mx charge slacks).map Prod.snd)),
         excess + unabsorbedSurplusTotal
            (slacks.zip ((dispatchTrajectory eff peak mn mx charge slacks).map Prod.snd))) := by
  intro slacks
  induction slacks with
  | nil =>
    intro charge lack excess
    simp [objectiveLoop, dispatchTrajectory, unmetDeficitTotal, unabsorbedSurplusTotal]
  | cons s rest ih =>
    intro charge lack excess
    by_cases hs : 0 < s
    · simp only [objectiveLoop, dispatchTrajectory, dispatchStep, if_pos hs, List.map_cons,
        List.zip_cons_cons, unmetDeficitTotal, unabsorbedSurplusTotal, List.sum_cons]
      rw [ih]
      have hns : ¬ s < 0 := not_lt.2 hs.le
      simp only [unmetDeficitTotal, unabsorbedSurplusTotal, if_pos hs, if_neg hns,
        Prod.mk.injEq]
      constructor <;> ring
    · by_cases hs2 : s < 0
      · simp only [objectiveLoop, dispatchTrajectory, dispatchStep, if_neg hs, if_pos hs2,
          List.map_cons, List.zip_cons_cons, unmetDeficitTotal, unabsorbedSurplusTotal,
          List.sum_cons]
        rw [ih]
        simp only [unmetDeficitTotal, unabsorbedSurplusTotal, if_neg hs, if_pos hs2,
          Prod.mk.injEq]
        constructor <;> ring
      · simp only [objectiveLoop, dispatchTrajectory, dispatchStep, if_neg hs, if_neg hs2,
          List.map_cons, List.zip_cons_cons, unmetDeficitTotal, unabsorbedSurplusTotal,
          List.sum_cons]
        rw [ih]
        simp only [unmetDeficitTotal, unabsorbedSurplusTotal, if_neg hs, if_neg hs2,
          Prod.mk.injEq]
        constructor <;> ring

/-- Counterexample for claim C4: the objective does not use
capacity-scaled bounds.  With configured fractions 0.1 and 0.9 of the
initial 10 MWh capacity (fixed bounds 1 and 9), at candidate capacity
20 the code's objective on the series [-20] is 12, while the objective
with bounds scaled to the candidate capacity (bounds 2 and 18) is 4. -/
theorem objective_capacity_not_scaled :
    (objective_function 100 20 [-20] 1 1 9 = 12 ∧
      objectiveCapacityScaled 100 20 [-20] 1 (1/10) (9/10) = 4) ∧
    objective_function 100 20 [-20] 1 1 9 ≠
      objectiveCapacityScaled 100 20 [-20] 1 (1/10) (9/10) := by
  refine ⟨⟨?_, ?_⟩, ?_⟩ <;>
    norm_num [objectiveCapacityScaled, objective_function, objectiveLoop, min_def, abs]

/-- Claim C4 (amended): the optimizer objective at a (power, capacity)
pair equals the absolute difference between the unmet-deficit total and
the unabsorbed-surplus total of the dispatch run with power limit set
to the power argument and the fixed configuration bounds; the capacity
argument is not used, so the objective is the same at every candidate
capacity. -/
theorem objective_function_abs_imbalance (peak cap : ℚ) (slacks : List ℚ)
    (eff mn mx : ℚ) :
    objective_function peak cap slacks eff mn mx =
      |unmetDeficitTotal
          (slacks.zip ((dispatchTrajectory eff peak mn mx mn slacks).map Prod.snd)) -
        unabsorbedSurplusTotal
          (slacks.zip ((dispatchTrajectory eff peak mn mx mn slacks).map Prod.snd))| ∧
    ∀ cap2 : ℚ, objective_function peak cap2 slacks eff mn mx =
      objective_function peak cap slacks eff mn mx := by
  constructor
  · unfold objective_function
    rw [objectiveLoop_eq_totals]
    norm_num
  · intro cap2
    rfl

/-!
### Claim C5
-/

/-- A reshape always yields the requested number of rows. -/
theorem takeChunks_length (cols : ℕ) :
    ∀ (rows : ℕ) (l : List ℚ), (takeChunks cols rows l).length = rows := by
  intro rows
  induction rows with
  | zero => intro l; rfl
  | succ r ih => intro l; simp [takeChunks, ih]

/-- Reading column `h` of a row-major reshape reads the flat list at
the indices `d * cols + h`. -/
theorem takeChunks_map_getD (cols h : ℕ) (hh : h < cols) :
    ∀ (rows : ℕ) (l : List ℚ),
      (takeChunks cols rows l).map (fun row => row.getD h 0) =
        (List.range rows).map (fun d => l.getD (d * cols + h) 0) := by
  intro rows
  induction rows with
  | zero => intro l; rfl
  | succ r ih =>
    intro l
    have hhead : (l.take cols).getD h 0 = l.getD h 0 := by
      rw [List.getD_eq_getElem?_getD, List.getD_eq_getElem?_getD,
        List.getElem?_take_of_lt hh]
    have hdrop : ∀ m : ℕ, (l.drop cols).getD m 0 = l.getD (cols + m) 0 := by
      intro m
      rw [List.getD_eq_getElem?_getD, List.getD_eq_getElem?_getD, List.getElem?_drop]
    have hidx : ∀ d : ℕ, cols + (d * cols + h) = (d + 1) * cols + h := by
      intro d; ring
    rw [List.range_succ_eq_map]
    simp only [takeChunks, List.map_cons, List.map_map]
    rw [hhead, ih (l.drop cols)]
    congr 1
    · simp
    · apply List.map_congr_left
      intro d _
      simp only [Function.comp_apply, hdrop, hidx]

/-- Counterexample for claim C5: a 48-step trajectory is evenly
divisible by the period 24, yet the average daily profile computation
fails, because the reshape is hard-coded to 365 rows of 24. -/
theorem averageDailyProfile_divisible_failure :
    averageDailyProfile (List.replicate 48 0) = none ∧ (48 : ℕ) % 24 = 0 := by
  constructor
  · norm_num [averageDailyProfile, reshape]
  · norm_num

/-- Claim C5 (amended): the average daily profile reshapes the
trajectory into exactly 365 segments of length 24 (the hard-coded
reference year) and returns the elementwise mean across the segments:
it succeeds if and only if the trajectory length is 365 * 24 = 8760,
and on success the profile has length 24 and its entry at hour `h` is
the mean over the 365 days of the trajectory value at index
`d * 24 + h`. -/
theorem averageDailyProfile_spec (l : List ℚ) :
    ((averageDailyProfile l).isSome ↔ l.length = 365 * 24) ∧
    (∀ p, averageDailyProfile l = some p →
      p.length = 24 ∧
      ∀ h, h < 24 → p[h]? =
        some (((List.range 365).map (fun d => l.getD (d * 24 + h) 0)).sum / 365)) := by
  constructor
  · unfold averageDailyProfile reshape
    by_cases hlen : l.length = 365 * 24 <;> simp [hlen]
  · intro p hp
    have hlen : l.length = 365 * 24 := by
      by_contra hlen
      simp [averageDailyProfile, reshape, hlen] at hp
    have hpeq : p = columnMeans 24 (takeChunks 24 365 l) := by
      simp [averageDailyProfile, reshape, hlen] at hp
      exact hp.symm
    subst hpeq
    constructor
    · simp [columnMeans]
    · intro h hh
      unfold columnMeans
      rw [List.getElem?_map, List.getElem?_range hh]
      simp only [Option.map_some']
      rw [takeChunks_map_getD 24 h hh 365 l, takeChunks_length]
      norm_num

/-- Witness for claim C5 on a concrete full-year trajectory. -/
theorem averageDailyProfile_spec_witness :
    averageDailyProfile (List.replicate 8760 (0:ℚ)) =
        some (columnMeans 24 (takeChunks 24 365 (List.replicate 8760 (0:ℚ)))) ∧
      (0:ℕ) < 24 ∧
      (columnMeans 24 (takeChunks 24 365 (List.replicate 8760 (0:ℚ))))[0]? =
        some (((List.range 365).map
          (fun d => (List.replicate 8760 (0:ℚ)).getD (d * 24 + 0) 0)).sum / 365) := by
  have hsome : averageDailyProfile (List.replicate 8760 (0:ℚ)) =
      some (columnMeans 24 (takeChunks 24 365 (List.replicate 8760 (0:ℚ)))) := by
    norm_num [averageDailyProfile, reshape]
  exact ⟨hsome, by norm_num,
    ((averageDailyProfile_spec (List.replicate 8760 0)).2 _ hsome).2 0 (by norm_num)⟩

/-!
### Claims C6 and C7
-/

/-- Claim C6 (code behavior at the failing input): with efficiency 0
the script raises no validation error whatsoever — the only
pre-simulation check is the presence of the Slack column — and the
dispatch loop still executes, producing a full (garbage) result; no
ConfigValidationError exists anywhere in the program. -/
theorem zero_efficiency_not_validated :
    validateInput true = none ∧
    dispatchTrajectory 0 10 1 9 1 [5] = [(1, 0)] := by
  constructor
  · rfl
  · norm_num [dispatchTrajectory, dispatchStep, min_def]

/-- Claim C7 (code behavior at the failing input): with
`min_bess_charge = 95/2` above `max_bess_charge = 15/2` (sliders 0.95
and 0.15 swapped on a 50 MWh battery), the script raises no error and
the dispatch loop runs: on the single surplus step -5 the negative
`room_to_max` forces a charge amount of -40, the state of charge jumps
from 95/2 down to 15/2 (below the configured floor) and the recorded
energy flow is +40 for a -5 slack. -/
theorem inverted_bounds_not_validated :
    validateInput true = none ∧
    dispatchTrajectory 1 10 (95/2) (15/2) (95/2) [-5] = [(15/2, 40)] ∧
    (15/2 : ℚ) < 95/2 := by
  refine ⟨rfl, ?_, by norm_num⟩
  norm_num [dispatchTrajectory, dispatchStep, min_def]

/-!
### Claim C8
-/

/-- The two accumulators of the objective loop never decrease: each
per-step contribution (`slack - dischargeAmount * efficiency` and
`|slack| - chargeAmount / efficiency`) is non-negative when the
efficiency is positive. -/
theorem objectiveLoop_nonneg (eff peak mn mx : ℚ) (heff : 0 < eff) :
    ∀ (slacks : List ℚ) (charge lack excess : ℚ), 0 ≤ lack → 0 ≤ excess →
      0 ≤ (objectiveLoop eff peak mn mx slacks charge lack excess).1 ∧
      0 ≤ (objectiveLoop eff peak mn mx slacks charge lack excess).2 := by
  intro slacks
  induction slacks with
  | nil =>
    intro charge lack excess hl he
    exact ⟨hl, he⟩
  | cons s rest ih =>
    intro charge lack excess hl he
    by_cases hs : 0 < s
    · have hd1 : min (min (s / eff) peak) (charge - mn) ≤ s / eff :=
        (min_le_left _ _).trans (min_le_left _ _)
      have hstep : min (min (s / eff) peak) (charge - mn) * eff ≤ s := by
        calc min (min (s / eff) peak) (charge - mn) * eff
            ≤ s / eff * eff := mul_le_mul_of_nonneg_right hd1 heff.le
          _ = s := div_mul_cancel₀ s heff.ne'
      simp only [objectiveLoop, if_pos hs]
      exact ih _ _ _ (by linarith) he
    · by_cases hs2 : s < 0
      · have hc1 : min (min (|s| * eff) peak) (mx - charge) ≤ |s| * eff :=
          (min_le_left _ _).trans (min_le_left _ _)
        have hstep : min (min (|s| * eff) peak) (mx - charge) / eff ≤ |s| :=
          (div_le_iff heff).2 hc1
        simp only [objectiveLoop, if_neg hs, if_pos hs2]
        exact ih _ _ _ hl (by linarith)
      · simp only [objectiveLoop, if_neg hs, if_neg hs2]
        exact ih _ _ _ hl he

/-- Claim C8: for every slack series under a valid configuration
(efficiency in (0, 1], power limit non-negative), the final
`lack_of_energy` and `excess_of_energy` accumulated by the dispatch
accumulation loop are both non-negative. -/
theorem accumulated_totals_nonneg (eff peak mn mx : ℚ) (slacks : List ℚ)
    (heff : 0 < eff) (heffle : eff ≤ 1) (hpeak : 0 ≤ peak) :
    0 ≤ (objectiveLoop eff peak mn mx slacks mn 0 0).1 ∧
    0 ≤ (objectiveLoop eff peak mn mx slacks mn 0 0).2 :=
  objectiveLoop_nonneg eff peak mn mx heff slacks mn 0 0 le_rfl le_rfl

/-- Witness for claim C8 on a concrete run. -/
theorem accumulated_totals_nonneg_witness :
    0 ≤ (objectiveLoop 1 10 1 9 [5, -5] 1 0 0).1 ∧
    0 ≤ (objectiveLoop 1 10 1 9 [5, -5] 1 0 0).2 :=
  accumulated_totals_nonneg 1 10 1 9 [5, -5] (by norm_num) (by norm_num) (by norm_num)

/-!
### Claim C9
-/

/-- Per-step flow bounds: under a valid configuration with the state of
charge within bounds, the recorded energy flow never exceeds the
deficit nor the surplus of the step. -/
theorem dispatchStep_flow_bounds (eff peak mn mx charge slack : ℚ)
    (heff : 0 < eff) (hpeak : 0 ≤ peak) (h1 : mn ≤ charge) (h2 : charge ≤ mx) :
    (0 < slack → 0 ≤ (dispatchStep eff peak mn mx charge slack).2 ∧
      (dispatchStep eff peak mn mx charge slack).2 ≤ slack) ∧
    (slack < 0 → slack ≤ (dispatchStep eff peak mn mx charge slack).2 ∧
      (dispatchStep eff peak mn mx charge slack).2 ≤ 0) ∧
    (slack = 0 → (dispatchStep eff peak mn mx charge slack).2 = 0) := by
  refine ⟨fun hs => ?_, fun hs => ?_, fun hs => ?_⟩
  · have hd0 : (0:ℚ) ≤ min (min (slack / eff) peak) (charge - mn) :=
      le_min (le_min (div_pos hs heff).le hpeak) (sub_nonneg.2 h1)
    have hd1 : min (min (slack / eff) peak) (charge - mn) ≤ slack / eff :=
      (min_le_left _ _).trans (min_le_left _ _)
    have hle : min (min (slack / eff) peak) (charge - mn) * eff ≤ slack := by
      calc min (min (slack / eff) peak) (charge - mn) * eff
          ≤ slack / eff * eff := mul_le_mul_of_nonneg_right hd1 heff.le
        _ = slack := div_mul_cancel₀ slack heff.ne'
    simp only [dispatchStep, if_pos hs]
    exact ⟨mul_nonneg hd0 heff.le, hle⟩
  · have hc0 : (0:ℚ) ≤ min (min (|slack| * eff) peak) (mx - charge) :=
      le_min (le_min (mul_nonneg (abs_nonneg slack) heff.le) hpeak) (sub_nonneg.2 h2)
    have hc1 : min (min (|slack| * eff) peak) (mx - charge) ≤ |slack| * eff :=
      (min_le_left _ _).trans (min_le_left _ _)
    have hdiv : min (min (|slack| * eff) peak) (mx - charge) / eff ≤ |slack| :=
      (div_le_iff heff).2 hc1
    have habs : |slack| = -slack := abs_of_neg hs
    have hdivnn : 0 ≤ min (min (|slack| * eff) peak) (mx - charge) / eff :=
      div_nonneg hc0 heff.le
    simp only [dispatchStep, if_neg (not_lt.2 hs.le), if_pos hs]
    exact ⟨by linarith, by linarith⟩
  · simp [dispatchStep, hs]

/-- The flow bounds hold at every index of the dispatch trajectory,
propagating the state-of-charge invariant along the run. -/
theorem dispatchTrajectory_flow_aux (eff peak mn mx : ℚ)
    (heff : 0 < eff) (hpeak : 0 ≤ peak) :
    ∀ (slacks : List ℚ) (i : ℕ) (charge : ℚ), mn ≤ charge → charge ≤ mx →
      ∀ (s : ℚ) (pr : ℚ × ℚ), slacks.get? i = some s →
        (dispatchTrajectory eff peak mn mx charge slacks).get? i = some pr →
        (0 < s → 0 ≤ pr.2 ∧ pr.2 ≤ s) ∧
        (s < 0 → s ≤ pr.2 ∧ pr.2 ≤ 0) ∧
        (s = 0 → pr.2 = 0) := by
  intro slacks
  induction slacks with
  | nil =>
    intro i charge _ _ s pr hs hpr
    simp at hs
  | cons a rest ih =>
    intro i charge h1 h2 s pr hs hpr
    cases i with
    | zero =>
      simp only [dispatchTrajectory, List.get?] at hs hpr
      injection hs with hs2
      injection hpr with hpr2
      subst hs2
      subst hpr2
      exact dispatchStep_flow_bounds eff peak mn mx charge a heff hpeak h1 h2
    | succ n =>
      simp only [dispatchTrajectory, List.get?] at hs hpr
      have hstep := dispatchStep_fst_bounds eff peak mn mx charge a heff hpeak h1 h2
      exact ih n _ hstep.1 hstep.2 s pr hs hpr

/-- Claim C9: at every step of the dispatch loop under a valid
configuration, the recorded energy flow is bounded by the slack of that
step: between 0 and the slack on a deficit step, between the slack and
0 on a surplus step, and exactly 0 on a zero step. -/
theorem energy_flow_bounded_by_slack (eff peak mn mx : ℚ) (slacks : List ℚ)
    (i : ℕ) (s : ℚ) (pr : ℚ × ℚ)
    (heff : 0 < eff) (heffle : eff ≤ 1) (hpeak : 0 ≤ peak) (hmn : mn ≤ mx)
    (hs : slacks.get? i = some s)
    (hpr : (dispatchTrajectory eff peak mn mx mn slacks).get? i = some pr) :
    (0 < s → 0 ≤ pr.2 ∧ pr.2 ≤ s) ∧
    (s < 0 → s ≤ pr.2 ∧ pr.2 ≤ 0) ∧
    (s = 0 → pr.2 = 0) :=
  dispatchTrajectory_flow_aux eff peak mn mx heff hpeak slacks i mn le_rfl hmn s pr hs hpr

/-- Witness for claim C9 at the surplus step of a concrete run. -/
theorem energy_flow_bounded_by_slack_witness :
    ([5, -5] : List ℚ).get? 1 = some (-5) ∧
    (dispatchTrajectory 1 10 1 9 1 [5, -5]).get? 1 = some (6, -5) ∧
    ((-5 : ℚ) ≤ ((6:ℚ), (-5:ℚ)).2 ∧ ((6:ℚ), (-5:ℚ)).2 ≤ 0) := by
  have hs : ([5, -5] : List ℚ).get? 1 = some (-5) := rfl
  have hpr : (dispatchTrajectory 1 10 1 9 1 [5, -5]).get? 1 = some (6, -5) := by
    norm_num [dispatchTrajectory, dispatchStep, min_def, List.get?]
  exact ⟨hs, hpr,
    (energy_flow_bounded_by_slack 1 10 1 9 [5, -5] 1 (-5) (6, -5)
      (by norm_num) (by norm_num) (by norm_num) (by norm_num) hs hpr).2.1 (by norm_num)⟩

/-!
### Claim C10
-/

/-- Claim C10: the month label of step index `i` is
`(i / 720) % 12 + 1` — months are fixed 720-hour blocks wrapping after
8640 steps — so in an 8760-step year every one of the final 120 steps
(indices 8640 to 8759) is labelled month 1, not month 12. -/
theorem month_label_wraps :
    (∀ i : ℕ, monthLabel i = i / 720 % 12 + 1) ∧
    (∀ i : ℕ, 8640 ≤ i → i < 8760 → monthLabel i = 1) := by
  constructor
  · intro i
    rfl
  · intro i hlo hhi
    unfold monthLabel
    omega

/-- Witness for claim C10 at step index 8700. -/
theorem month_label_wraps_witness :
    (8640 ≤ 8700 ∧ 8700 < 8760) ∧ monthLabel 8700 = 1 :=
  ⟨⟨by norm_num, by norm_num⟩, month_label_wraps.2 8700 (by norm_num) (by norm_num)⟩

end SlackBESS
